import Mathlib

/-!
# Verification of the AegisBlade Node.js client packaging/dispatch logic

A shallow embedding of the client library's core: file collection and
exclusion filtering (`ApplicationContextFile.collect`), library packaging
validation (`getLibraryInfos`), payload construction (`CreateApplicationPayload`,
`CreateJobPayload`, `UploadFilePayload`, `HostDefinition`), the target-function
locator (`searchForTargetFunctionModule` / `targetFunctionComponents`), the
upload-dedup loop of `AegisBladeClient.run`, job status fetching with retries
(`Api.jobStatus` / `Job.getStatus`) and the blocking poll loop (`Job.wait`).

External collaborators (filesystem, `npm` subprocesses, the HTTP transport,
`crypto` hashing, `path.relative`) are modelled as explicit environment
records passed to the embedded functions; the client-side control flow and
data shaping are translated directly from the source.
-/

/-! ## String helpers

The source tests paths with the regular expressions `/node_modules/` and
`/\.\./` (plain substring tests) and compares status strings after
`toLowerCase()`.  `String.includes` is likewise a substring test.  We model
them over `List Char` so that they evaluate by kernel reduction. -/

/-- Is `pat` a prefix of the character list? -/
def listPrefixOf : List Char → List Char → Bool
  | [], _ => true
  | _ :: _, [] => false
  | a :: as, b :: bs => a == b && listPrefixOf as bs

/-- Is `pat` a contiguous infix of the character list? -/
def listInfixOf (pat : List Char) : List Char → Bool
  | [] => listPrefixOf pat []
  | c :: cs => listPrefixOf pat (c :: cs) || listInfixOf pat cs

/-- JS `String.prototype.includes` / substring-matching regex literal. -/
def strContains (s pat : String) : Bool := listInfixOf pat.data s.data

/-- ASCII lowering of one character (models `toLowerCase` on the status
strings used by the service, which are ASCII). -/
def lowerChar (c : Char) : Char :=
  if c.isUpper then Char.ofNat (c.toNat + 32) else c

/-- JS `String.prototype.toLowerCase` on ASCII strings. -/
def jsToLower (s : String) : String := ⟨s.data.map lowerChar⟩

/-- JS whitespace test for `trim`. -/
def isJsSpace (c : Char) : Bool := c == ' ' || c == '\n' || c == '\t' || c == '\r'

/-- JS `String.prototype.trim`. -/
def jsTrim (s : String) : String :=
  ⟨((s.data.dropWhile isJsSpace).reverse.dropWhile isJsSpace).reverse⟩

/-- `path.join a b`: modelled as interposing a separator (none of the claims
depends on `path.join` normalisation of dot segments). -/
def pathJoin (a b : String) : String := a ++ "/" ++ b

/-! ## Errors

One error type covers the embedded client.  Each constructor corresponds to
one `throw new Error(...)` site (or a rethrow) in the source; the payload is
the datum interpolated into the thrown message. -/

/-- Errors raised by the embedded client code. -/
inductive ClientError where
  /-- A generic `TypeError` from dereferencing `undefined` (not a
  `new Error(...)` site: the runtime fault of reading a property of
  `undefined`). -/
  | typeErrorUndefined : ClientError
  /-- `Unable to find module for target function: <name>...` -/
  | targetFunctionNotFound (funcName : String) : ClientError
  /-- Artifact of the embedding: the BFS fuel ran out (the JS loop has no
  such case; theorems supply enough fuel that this is never returned). -/
  | searchBudgetExhausted : ClientError
  /-- `Library directory was not found: <path>` -/
  | libraryNotFound (path : String) : ClientError
  /-- `Specified library path is not a directory: <path>.` -/
  | libraryNotADirectory (path : String) : ClientError
  /-- `Library directory does not include a package.json file: <path>` -/
  | libraryMissingManifest (path : String) : ClientError
  /-- `Unable to parse librarys package.json: <path>` -/
  | libraryManifestParse (path : String) : ClientError
  /-- `Librarys package.json has no name property.` (no path named) -/
  | libraryManifestMissingName : ClientError
  /-- A non-ENOENT `statSync` error rethrown by `getLibraryInfos`. -/
  | libraryStatRethrown (path : String) : ClientError
  /-- A non-`Unexpected token` error rethrown while parsing `npm pack` output. -/
  | npmPackOutputRethrown (path : String) : ClientError
  /-- `npm pack` subprocess failure (rejected promise propagates). -/
  | npmPackFailed (path : String) : ClientError
  /-- `Error: package <name> is missing.` -/
  | packageMissing (name : String) : ClientError
  /-- `Expected 3 parts in Node Version.` -/
  | badNodeVersion : ClientError
  /-- `Waiting for Job (id: ...) to finish timed out.` -/
  | timeoutWaiting : ClientError
  deriving Repr, DecidableEq

/-! ## Data model: context files and payloads (models.js) -/

/-- `ApplicationContextFile`: one file travelling with the application.
`fileContents` is the byte array (`Buffer.toJSON().data`). -/
structure ApplicationContextFile where
  filePath : String
  filePathRelativeToAppContext : String
  fileHash : String
  fileByteCount : Nat
  fileContents : List Nat
  deriving Repr, DecidableEq

/-- `UploadFilePayload`: metadata + raw bytes + application id. -/
structure UploadFilePayload where
  applicationContextFile : ApplicationContextFile
  fileContents : List Nat
  applicationGuid : String
  deriving Repr, DecidableEq

/-- The server's create-application response: the application id and the set
of content hashes the server does not yet have. -/
structure CreateApplicationResponse where
  applicationId : String
  fileHashesRequiringUpload : List String
  deriving Repr, DecidableEq

/-! ## The upload loop of `AegisBladeClient.run`

```js
for (let uploadFileHash of createApplicationResponse.fileHashesRequiringUpload) {
    let appFile = applicationFiles.find((f) => f.fileHash === uploadFileHash);
    let fileContents = appFile.fileContents;
    let uploadFilePayload = new UploadFilePayload(appFile, fileContents,
        createApplicationResponse.applicationId);
    await this.api.uploadFile(uploadFilePayload);
}
```

`Array.prototype.find` returns `undefined` when no element matches, and the
subsequent `appFile.fileContents` then raises a `TypeError`; the loop sends
one upload request per listed hash and aborts at the first error. -/

/-- The per-missing-hash upload loop of `run`: one upload payload per listed
hash, in order, aborting with the `TypeError` raised when a listed hash
matches no collected file. -/
def uploadLoop : List String → List ApplicationContextFile → String →
    Except ClientError (List UploadFilePayload)
  | [], _, _ => .ok []
  | uploadFileHash :: restHashes, applicationFiles, applicationId =>
    match applicationFiles.find? (fun f => f.fileHash == uploadFileHash) with
    | some appFile =>
      match uploadLoop restHashes applicationFiles applicationId with
      | .ok payloads => .ok (⟨appFile, appFile.fileContents, applicationId⟩ :: payloads)
      | .error e => .error e
    | none => .error .typeErrorUndefined

/-! ## File collection (`ApplicationContextFile.collect`)

The filesystem, `require.cache`, the recursive directory walks, `crypto`
hashing and `path.relative(process.cwd(), ·)` are external collaborators,
modelled as an environment record.  The candidate-set assembly, the JS-object
set semantics (`allModulesSet[key] = true` / `Object.keys`), the exclusion
filter and the `ApplicationContextFile` construction are translated from the
source. -/

/-- Environment of `ApplicationContextFile.collect`: the external
collaborators it consults. -/
structure CollectEnv where
  /-- `path.relative(process.cwd(), p)`. -/
  relPath : String → String
  /-- `fs.statSync(p).isDirectory()`. -/
  isDirectory : String → Bool
  /-- `listFiles(["*"], dir)`: the recursive walk of a directory, unfiltered. -/
  listAllFiles : String → List String
  /-- `Object.keys(require.cache)`: the loaded modules, absolute paths. -/
  requireCacheKeys : List String
  /-- `listFiles([".js"])`: the recursive `.js` walk from the cwd. -/
  cwdJsFiles : List String
  /-- `readFile(p)` as bytes. -/
  readFileBytes : String → List Nat
  /-- `crypto.createHash("sha256")....digest("hex")` over the bytes. -/
  sha256hex : List Nat → String

/-- JS-object set insertion: `set[k] = true` keeps the first insertion
position and ignores re-insertions (`Object.keys` order). -/
def insertKey (set : List String) (k : String) : List String :=
  if set.contains k then set else set ++ [k]

/-- One `extraFile` entry of the candidate loop: directories are expanded by
the unfiltered walk, plain files inserted directly. -/
def addExtraFile (env : CollectEnv) (set : List String) (extraFile : String) :
    List String :=
  let relativePath := env.relPath extraFile
  if env.isDirectory relativePath then
    (env.listAllFiles relativePath).foldl
      (fun s dirFile => insertKey s (env.relPath dirFile)) set
  else
    insertKey set relativePath

/-- `Object.keys(allModulesSet)`: extra files, then `require.cache` modules,
then the `.js` walk, deduplicated with first-insertion order. -/
def allModulesList (env : CollectEnv) (extraFiles : List String) : List String :=
  let afterExtra := extraFiles.foldl (addExtraFile env) []
  let afterRequireCache :=
    env.requireCacheKeys.foldl (fun s k => insertKey s (env.relPath k)) afterExtra
  env.cwdJsFiles.foldl (fun s f => insertKey s (env.relPath f)) afterRequireCache

/-- The exclusion test: `excludedPatterns = [/node_modules/, /\.\./]` applied
to `path.relative(process.cwd(), elem)`. -/
def isExcludedRel (relElem : String) : Bool :=
  strContains relElem "node_modules" || strContains relElem ".."

/-- `filteredModules`: candidates whose cwd-relative form matches no
exclusion pattern. -/
def filteredModules (env : CollectEnv) (extraFiles : List String) : List String :=
  (allModulesList env extraFiles).filter fun elem => ! isExcludedRel (env.relPath elem)

/-- Wrap one kept path as an `ApplicationContextFile`: read bytes, hash,
count bytes, and record both path forms. -/
def mkContextFile (env : CollectEnv) (filePath : String) : ApplicationContextFile :=
  let relFilePath := env.relPath filePath
  let fileContents := env.readFileBytes filePath
  { filePath := filePath
    filePathRelativeToAppContext := relFilePath
    fileHash := env.sha256hex fileContents
    fileByteCount := fileContents.length
    fileContents := fileContents }

/-- The context files built from the candidate paths (extra files, loaded
modules, directory walk) after exclusion filtering — the body of
`ApplicationContextFile.collect` before the library archives are appended. -/
def moduleContextFiles (env : CollectEnv) (extraFiles : List String) :
    List ApplicationContextFile :=
  (filteredModules env extraFiles).map (mkContextFile env)

/-- `LibraryInfo`: package name plus the packed archive as a context file. -/
structure LibraryInfo where
  packageName : String
  archiveContextFile : ApplicationContextFile
  deriving Repr, DecidableEq

/-- `ApplicationContextFile.collect`: candidate-derived files followed by the
library archive files (`libraryInfos` is the JS object, in value order). -/
def ApplicationContextFile.collect (env : CollectEnv) (extraFiles : List String)
    (libraryInfos : List (String × LibraryInfo)) : List ApplicationContextFile :=
  moduleContextFiles env extraFiles ++ libraryInfos.map (fun li => li.2.archiveContextFile)

/-! ## Library packaging (`getLibraryInfos`)

Filesystem `stat`s, `package.json` reading/parsing, temp-file creation and
the `npm pack` subprocess are external collaborators, modelled per library
path by an environment record.  The validation order, the error cases and
the archive context-file construction are translated from the source. -/

/-- Outcome of `fs.statSync`: the stat record, or the classified error.
`enoent` is the case the source recognises (`err.code === "ENOENT"` with an
`ENOENT` message); any other error is rethrown. -/
inductive StatOutcome where
  | ok (isDirectoryFlag : Bool) (isFileFlag : Bool) : StatOutcome
  | enoent : StatOutcome
  | otherError : StatOutcome
  deriving Repr, DecidableEq

/-- A parsed `package.json`: only the `name` property matters to the client.
`name = none` models an absent property, `some ""` an empty one; both are
falsy under the `!packageJson["name"]` test. -/
structure PackageManifest where
  name : Option String
  deriving Repr, DecidableEq

/-- JS falsiness of the manifest `name` property. -/
def manifestNameFalsy : Option String → Bool
  | none => true
  | some s => s == ""

/-- Outcome of `JSON.parse(npmPackStdout)[0]["filename"]`: the filename, an
`Unexpected token` failure (old npm, plain-text output — the source falls
back to `stdout.trim()`), or another error (rethrown). -/
inductive NpmPackParseOutcome where
  | jsonFilename (filename : String) : NpmPackParseOutcome
  | unexpectedToken : NpmPackParseOutcome
  | otherError : NpmPackParseOutcome
  deriving Repr, DecidableEq

/-- Environment of `getLibraryInfos`: the external collaborators it
consults, keyed by path. -/
structure LibraryEnv where
  /-- `fs.statSync(p)` classified. -/
  stat : String → StatOutcome
  /-- `readFile(path.join(lib, "package.json"))` + `JSON.parse`: `none` when
  either throws. -/
  parseManifest : String → Option PackageManifest
  /-- `path.dirname(await createTempFile())` for this library. -/
  tempDir : String → String
  /-- `path.resolve(path.normalize(lib))`. -/
  resolveAbs : String → String
  /-- Did the `npm pack --json <abs>` subprocess resolve? -/
  npmPackOk : String → Bool
  /-- Its stdout. -/
  npmPackStdout : String → String
  /-- `JSON.parse` of its stdout, classified. -/
  npmPackParse : String → NpmPackParseOutcome
  /-- `readFile(archivePath, null)` as bytes. -/
  readFileBytes : String → List Nat
  /-- sha256 hex digest over bytes. -/
  sha256hex : List Nat → String

/-- The archive context file built from a produced archive name (tail of a
successful `getLibraryInfos` iteration): the relative path is rewritten
under the reserved `aegisblade_lib` subdirectory. -/
def mkLibraryInfo (env : LibraryEnv) (libraryPackageName tempDir libraryArchive : String) :
    LibraryInfo :=
  let libraryArchivePath := pathJoin tempDir libraryArchive
  let relLibraryArchivePath := pathJoin "aegisblade_lib" libraryArchive
  let libraryArchiveContents := env.readFileBytes libraryArchivePath
  { packageName := libraryPackageName
    archiveContextFile :=
      { filePath := libraryArchivePath
        filePathRelativeToAppContext := relLibraryArchivePath
        fileHash := env.sha256hex libraryArchiveContents
        fileByteCount := libraryArchiveContents.length
        fileContents := libraryArchiveContents } }

/-- Validation and packaging of one configured library directory (one
iteration of the `getLibraryInfos` loop). -/
def getLibraryInfo1 (env : LibraryEnv) (library : String) :
    Except ClientError LibraryInfo :=
  match env.stat library with
  | .enoent => .error (.libraryNotFound library)
  | .otherError => .error (.libraryStatRethrown library)
  | .ok isDir _ =>
    if !isDir then .error (.libraryNotADirectory library) else
    match env.stat (pathJoin library "package.json") with
    | .enoent => .error (.libraryMissingManifest library)
    | .otherError => .error (.libraryStatRethrown (pathJoin library "package.json"))
    | .ok _ isFile =>
      if !isFile then .error (.libraryMissingManifest library) else
      match env.parseManifest library with
      | none => .error (.libraryManifestParse library)
      | some packageJson =>
        if manifestNameFalsy packageJson.name then .error .libraryManifestMissingName else
        let libraryPackageName := packageJson.name.getD ""
        let tempDir := env.tempDir library
        let libraryAbsPath := env.resolveAbs library
        if !env.npmPackOk libraryAbsPath then .error (.npmPackFailed library) else
        match env.npmPackParse libraryAbsPath with
        | .jsonFilename filename => .ok (mkLibraryInfo env libraryPackageName tempDir filename)
        | .unexpectedToken =>
          .ok (mkLibraryInfo env libraryPackageName tempDir
            (jsTrim (env.npmPackStdout libraryAbsPath)))
        | .otherError => .error (.npmPackOutputRethrown library)

/-- `libraryInfos[info.packageName] = info`: JS object upsert — an existing
key keeps its position and gets the new value, a new key is appended. -/
def upsertLibraryInfo (m : List (String × LibraryInfo)) (info : LibraryInfo) :
    List (String × LibraryInfo) :=
  if m.any (fun p => p.1 == info.packageName) then
    m.map (fun p => if p.1 == info.packageName then (info.packageName, info) else p)
  else
    m ++ [(info.packageName, info)]

/-- The `for (var library of libraries)` loop of `getLibraryInfos`,
threading the accumulated object. -/
def getLibraryInfosLoop (env : LibraryEnv) (acc : List (String × LibraryInfo)) :
    List String → Except ClientError (List (String × LibraryInfo))
  | [] => .ok acc
  | library :: rest =>
    match getLibraryInfo1 env library with
    | .error e => .error e
    | .ok info => getLibraryInfosLoop env (upsertLibraryInfo acc info) rest

/-- `getLibraryInfos(libraries)`: validate and package each configured
library in order; the first error aborts the whole collection. -/
def getLibraryInfos (env : LibraryEnv) (libraries : List String) :
    Except ClientError (List (String × LibraryInfo)) :=
  getLibraryInfosLoop env [] libraries

/-! ## Package collection (`ApplicationPackageInfo.collect`) -/

/-- `ApplicationPackageInfo`: one resolved npm dependency. -/
structure ApplicationPackageInfo where
  name : String
  version : String
  deriving Repr, DecidableEq

/-- One dependency entry of the parsed `npm list --depth=0 --json` output. -/
structure NpmDependency where
  name : String
  version : String
  missing : Bool
  deriving Repr, DecidableEq

/-- `ApplicationPackageInfo.collect`: walk the `npm list` dependencies,
fail on a missing package, skip ones satisfied by a packaged library. -/
def ApplicationPackageInfo.collect (dependencies : List NpmDependency)
    (libraryInfos : List (String × LibraryInfo)) :
    Except ClientError (List ApplicationPackageInfo) :=
  dependencies.foldlM
    (fun acc d =>
      if d.missing then throw (.packageMissing d.name)
      else if libraryInfos.any (fun p => p.1 == d.name) then pure acc
      else pure (acc ++ [⟨d.name, d.version⟩]))
    []

/-! ## Node version (`getNodeVersion`) -/

/-- Split on `.` (models `fullVersion.split(".")`). -/
def splitOnDot (s : String) : List String :=
  let rec go : List Char → List Char → List String
    | acc, [] => [⟨acc.reverse⟩]
    | acc, c :: cs => if c == '.' then ⟨acc.reverse⟩ :: go [] cs else go (c :: acc) cs
  go [] s.data

/-- `getNodeVersion`: `major.minor` of `process.versions.node`, requiring
exactly three dot-separated parts. -/
def getNodeVersion (fullVersion : String) : Except ClientError String :=
  let versionParts := splitOnDot fullVersion
  if versionParts.length != 3 then throw .badNodeVersion
  else pure (versionParts.headD "" ++ "." ++ (versionParts.getD 1 ""))

/-! ## Job configuration (jobConfig.js)

The JS `JobConfig` is a mutable builder over a plain object.  The dynamic
object admits properties beyond the declared defaults; two such properties
matter to the claims: `host.hostAffinity` (written by `withHostAffinity`)
and `memoryMb` (read by `run`).  They are modelled as explicit fields that
the defaults initialise to `none`. -/

/-- `host.options` of a `JobConfig`. -/
structure HostOptions where
  instanceType : Option String
  region : Option String
  useSpotInstance : Bool
  maxSpotPrice : Option String
  deriving Repr, DecidableEq

/-- The `host` object of a `JobConfig`.  `hostAffinity` is the extra dynamic
property created by `withHostAffinity`; the declared default property is
`affinity`. -/
structure JobConfigHost where
  driver : String
  affinity : Option String
  options : HostOptions
  hostAffinity : Option String
  deriving Repr, DecidableEq

/-- A `JobConfig` object.  `memoryMb` is the dynamic property read by
`run` (`safeJobConfig.memoryMb`); the declared default property is
`memory`, which `withMemory` writes. -/
structure JobConfig where
  memory : Option Int
  extraFiles : List String
  libraries : List String
  capabilities : List String
  host : JobConfigHost
  memoryMb : Option Int
  deriving Repr, DecidableEq

/-- `DefaultJobConfig()`: the defaults merged into every new `JobConfig`
(the dynamic `hostAffinity` / `memoryMb` properties start out absent). -/
def DefaultJobConfig : JobConfig :=
  { memory := none
    extraFiles := []
    libraries := []
    capabilities := []
    host :=
      { driver := "ec2"
        affinity := none
        options :=
          { instanceType := none
            region := none
            useSpotInstance := true
            maxSpotPrice := none }
        hostAffinity := none }
    memoryMb := none }

/-- `JobConfig.withMemory`: writes the `memory` property. -/
def JobConfig.withMemory (c : JobConfig) (memory : Int) : JobConfig :=
  { c with memory := some memory }

/-- `JobConfig.withExtraFile`. -/
def JobConfig.withExtraFile (c : JobConfig) (extraFilePath : String) : JobConfig :=
  { c with extraFiles := c.extraFiles ++ [extraFilePath] }

/-- `JobConfig.withLibrary`. -/
def JobConfig.withLibrary (c : JobConfig) (libraryPath : String) : JobConfig :=
  { c with libraries := c.libraries ++ [libraryPath] }

/-- The partial options dict accepted by `withHostDriver`
(`Object.assign(this.host.options, hostDriverOptions)`). -/
structure PartialHostOptions where
  instanceType : Option (Option String)
  region : Option (Option String)
  useSpotInstance : Option Bool
  maxSpotPrice : Option (Option String)
  deriving Repr, DecidableEq

/-- `Object.assign` of a partial options dict over `host.options`. -/
def assignHostOptions (o : HostOptions) (p : PartialHostOptions) : HostOptions :=
  { instanceType := p.instanceType.getD o.instanceType
    region := p.region.getD o.region
    useSpotInstance := p.useSpotInstance.getD o.useSpotInstance
    maxSpotPrice := p.maxSpotPrice.getD o.maxSpotPrice }

/-- `JobConfig.withHostDriver`: writes `host.driver` and assigns the option
dict over `host.options`. -/
def JobConfig.withHostDriver (c : JobConfig) (hostDriver : String)
    (hostDriverOptions : PartialHostOptions) : JobConfig :=
  { c with host := { c.host with
      driver := hostDriver
      options := assignHostOptions c.host.options hostDriverOptions } }

/-- `JobConfig.withHostAffinity`: writes `this.host.hostAffinity` — the
dynamic property, not the declared `affinity` property. -/
def JobConfig.withHostAffinity (c : JobConfig) (hostAffinity : String) : JobConfig :=
  { c with host := { c.host with hostAffinity := some hostAffinity } }

/-- `JobConfig.withCapability`. -/
def JobConfig.withCapability (c : JobConfig) (capability : String) : JobConfig :=
  { c with capabilities := c.capabilities ++ [capability] }

/-- One call of the chained builder interface. -/
inductive BuilderCall where
  | withMemory (memory : Int) : BuilderCall
  | withExtraFile (extraFilePath : String) : BuilderCall
  | withLibrary (libraryPath : String) : BuilderCall
  | withHostDriver (hostDriver : String) (hostDriverOptions : PartialHostOptions) : BuilderCall
  | withHostAffinity (hostAffinity : String) : BuilderCall
  | withCapability (capability : String) : BuilderCall
  deriving Repr

/-- Apply one builder call. -/
def applyBuilderCall (c : JobConfig) : BuilderCall → JobConfig
  | .withMemory m => c.withMemory m
  | .withExtraFile p => c.withExtraFile p
  | .withLibrary p => c.withLibrary p
  | .withHostDriver d o => c.withHostDriver d o
  | .withHostAffinity a => c.withHostAffinity a
  | .withCapability cap => c.withCapability cap

/-- A chain of builder calls starting from `new JobConfig()` (no config
argument: the defaults). -/
def buildJobConfig (calls : List BuilderCall) : JobConfig :=
  calls.foldl applyBuilderCall DefaultJobConfig

/-! ## Payloads (models.js) -/

/-- `HostDefinition(jobConfigHost)`: the wire shape of the host request.
It reads `jobConfigHost.affinity` (not the `hostAffinity` property that
`withHostAffinity` writes). -/
structure HostDefinition where
  driver : String
  hostAffinity : Option String
  driverOptions : HostOptions
  deriving Repr, DecidableEq

/-- The `HostDefinition` constructor. -/
def HostDefinition.ofHost (jobConfigHost : JobConfigHost) : HostDefinition :=
  { driver := jobConfigHost.driver
    hostAffinity := jobConfigHost.affinity
    driverOptions :=
      { instanceType := jobConfigHost.options.instanceType
        region := jobConfigHost.options.region
        useSpotInstance := jobConfigHost.options.useSpotInstance
        maxSpotPrice := jobConfigHost.options.maxSpotPrice } }

/-- `ApplicationExecutionContext(applicationPackages, applicationFiles)`. -/
structure ApplicationExecutionContext where
  language : String
  packages : List ApplicationPackageInfo
  files : List ApplicationContextFile
  packageManagerSourceFeeds : List String
  sourceRuntimeIdentifier : String
  targetRuntimeVersion : String
  targetRuntimeName : String
  clientVersion : String
  deriving Repr, DecidableEq

/-- The `ApplicationExecutionContext` constructor (platform/arch and node
version come from the running process, passed in explicitly). -/
def ApplicationExecutionContext.make (sourceRuntimeIdentifier targetRuntimeVersion : String)
    (applicationPackages : List ApplicationPackageInfo)
    (applicationFiles : List ApplicationContextFile) : ApplicationExecutionContext :=
  { language := "nodejs"
    packages := applicationPackages
    files := applicationFiles
    packageManagerSourceFeeds := []
    sourceRuntimeIdentifier := sourceRuntimeIdentifier
    targetRuntimeVersion := targetRuntimeVersion
    targetRuntimeName := "node"
    clientVersion := "test" }

/-- `CreateApplicationPayload(applicationPackages, applicationFiles, jobConfig)`. -/
structure CreateApplicationPayload where
  applicationExecutionContext : ApplicationExecutionContext
  hostDefinition : HostDefinition
  capabilities : List String
  deriving Repr, DecidableEq

/-- The `CreateApplicationPayload` constructor. -/
def CreateApplicationPayload.make (sourceRuntimeIdentifier targetRuntimeVersion : String)
    (applicationPackages : List ApplicationPackageInfo)
    (applicationFiles : List ApplicationContextFile) (jobConfig : JobConfig) :
    CreateApplicationPayload :=
  { applicationExecutionContext :=
      ApplicationExecutionContext.make sourceRuntimeIdentifier targetRuntimeVersion
        applicationPackages applicationFiles
    hostDefinition := HostDefinition.ofHost jobConfig.host
    capabilities := jobConfig.capabilities }

/-- The job entrypoint object built by `run`.  `functionArguments` is the
`args` parameter as passed (`none` models `undefined`, which
`JSON.stringify` omits).  The serialized string embedded in the create-job
request is `JSON.stringify` of this object; we keep the object itself, the
round-trip through JSON being the external serializer's contract. -/
structure JobEntrypoint where
  functionModuleFile : String
  functionName : String
  functionArguments : Option (List String)
  deriving Repr, DecidableEq

/-- `CreateJobPayload`: the create-job request body. -/
structure CreateJobPayload where
  applicationId : String
  serializedJobEntrypoint : JobEntrypoint
  jobType : String
  memoryMb : Option Int
  scheduledJobCrontab : Option String
  clientVersion : String
  hostDefinition : HostDefinition
  deriving Repr, DecidableEq

/-- JS `x || null` on a nullable number: `null` and `0` both map to `null`. -/
def jsOrNullInt : Option Int → Option Int
  | none => none
  | some v => if v == 0 then none else some v

/-! ## Function locator (targetFunc.js)

Modules are nodes of the `require` graph: filename, exported bindings
(export name paired with the exported function value), the `parent` module
and the `children` modules.  Function values are identified by an id —
`exportObj === targetFunction` is reference equality — and carry their
`name` property.  The BFS is translated line by line, including the inner
`while` that skips already-visited queue entries: when that loop drains the
queue, `searchQueue.shift()` yields `undefined` and the next
`visited[currentModule.filename]` read raises a `TypeError`. -/

/-- A JS function value: identity (for `===`) and its `name` property. -/
structure JsFunction where
  fid : Nat
  name : String
  deriving Repr, DecidableEq

/-- One module of the `require` graph.  `parent` and `children` are indices
into the graph's module list. -/
structure JsModule where
  filename : String
  exports : List (String × Nat)
  parent : Option Nat
  children : List Nat
  deriving Repr, DecidableEq

/-- Module lookup by index (queue entries always index real modules). -/
def getModule (g : List JsModule) (i : Nat) : JsModule :=
  (g.getD i ⟨"", [], none, []⟩)

/-- Outcome of `searchForTargetFunctionModule`. -/
inductive SearchOutcome where
  /-- The module whose exports contain the target (returned module index). -/
  | found (moduleIdx : Nat) : SearchOutcome
  /-- `Unable to find module for target function: <name>...` -/
  | notFoundError (funcName : String) : SearchOutcome
  /-- `TypeError`: `searchQueue.shift()` returned `undefined` inside the
  skip-visited loop and `.filename` was read from it. -/
  | typeErrorUndefined : SearchOutcome
  deriving Repr, DecidableEq

/-- The inner `while (visited[currentModule.filename] === true)` loop: shift
entries until an unvisited one is found; `.error ()` is the `TypeError`
raised when the queue drains first. -/
def shiftUnvisited (g : List JsModule) (visited : List String) :
    List Nat → Except Unit (Nat × List Nat)
  | [] => .error ()
  | m :: rest =>
    if visited.contains (getModule g m).filename then shiftUnvisited g visited rest
    else .ok (m, rest)

/-- Does the module export the target function (`exportObj === targetFunction`
over `for exportName in currentModule.exports`)? -/
def moduleExportsTarget (m : JsModule) (targetFunction : JsFunction) : Bool :=
  m.exports.any (fun e => e.2 == targetFunction.fid)

/-- The outer BFS loop, fuelled (the JS loop needs no fuel: every iteration
visits a new module or drains the queue; the theorems supply enough). -/
def searchLoop (g : List JsModule) (targetFunction : JsFunction) :
    List Nat → List String → Nat → Option SearchOutcome
  | _, _, 0 => none
  | searchQueue, visited, fuel + 1 =>
    if searchQueue.isEmpty then some (.notFoundError targetFunction.name)
    else
      match shiftUnvisited g visited searchQueue with
      | .error () => some .typeErrorUndefined
      | .ok (currentIdx, restQueue) =>
        let currentModule := getModule g currentIdx
        let visited1 := currentModule.filename :: visited
        if moduleExportsTarget currentModule targetFunction then
          some (.found currentIdx)
        else
          let queue1 :=
            match currentModule.parent with
            | some p =>
              if visited1.contains (getModule g p).filename then restQueue
              else restQueue ++ [p]
            | none => restQueue
          let queue2 :=
            currentModule.children.foldl
              (fun q childIdx =>
                if visited1.contains (getModule g childIdx).filename then q
                else q ++ [childIdx])
              queue1
          searchLoop g targetFunction queue2 visited1 fuel

/-- `searchForTargetFunctionModule(targetFunction)`: BFS from
`module.parent` (the immediate caller's module, index `startIdx`). -/
def searchForTargetFunctionModule (g : List JsModule) (startIdx : Nat)
    (targetFunction : JsFunction) (fuel : Nat) : Option SearchOutcome :=
  searchLoop g targetFunction [startIdx] [] fuel

/-- The components returned by `targetFunctionComponents`. -/
structure TargetFunctionComponents where
  file : String
  relFile : String
  name : String
  deriving Repr, DecidableEq

/-- `targetFunctionComponents(targetFunction)`: module filename, its
cwd-relative form, and the target function's own `name` property. -/
def targetFunctionComponents (g : List JsModule) (startIdx : Nat)
    (relPath : String → String) (targetFunction : JsFunction) (fuel : Nat) :
    Except ClientError TargetFunctionComponents :=
  match searchForTargetFunctionModule g startIdx targetFunction fuel with
  | some (.found moduleIdx) =>
    let funcModule := getModule g moduleIdx
    .ok ⟨funcModule.filename, relPath funcModule.filename, targetFunction.name⟩
  | some (.notFoundError funcName) => .error (.targetFunctionNotFound funcName)
  | some .typeErrorUndefined => .error .typeErrorUndefined
  | none => .error .searchBudgetExhausted

/-! ## `AegisBladeClient.run` (client.js)

The transport is an external collaborator; the server's create-application
response is modelled as a function of the payload sent.  `run` is embedded
up to the payloads it hands to the transport and the job handle fields it
returns. -/

/-- Environment of `run`: module graph, filesystem/npm collaborators,
process identifiers, and the server's create-application response. -/
structure RunEnv where
  graph : List JsModule
  startIdx : Nat
  searchFuel : Nat
  collectEnv : CollectEnv
  libraryEnv : LibraryEnv
  npmDependencies : List NpmDependency
  platformArch : String
  nodeVersionFull : String
  createApplicationResponse : CreateApplicationPayload → CreateApplicationResponse

/-- Everything `run` hands to the transport. -/
structure RunOutcome where
  createApplicationPayload : CreateApplicationPayload
  uploadFilePayloads : List UploadFilePayload
  createJobPayload : CreateJobPayload
  deriving Repr, DecidableEq

/-- `AegisBladeClient.run(targetFunction, args, jobConfig)` after argument
validation: locate the target, build the entrypoint, collect libraries,
packages and files, send create-application, upload the hashes the server
lacks, and build the create-job request. -/
def AegisBladeClient.run (env : RunEnv) (targetFunction : JsFunction)
    (args : Option (List String)) (safeJobConfig : JobConfig) :
    Except ClientError RunOutcome := do
  let comps ← targetFunctionComponents env.graph env.startIdx env.collectEnv.relPath
    targetFunction env.searchFuel
  let entrypoint : JobEntrypoint :=
    { functionModuleFile := comps.relFile
      functionName := comps.name
      functionArguments := args }
  let libraryInfos ← getLibraryInfos env.libraryEnv safeJobConfig.libraries
  let applicationPackages ← ApplicationPackageInfo.collect env.npmDependencies libraryInfos
  let applicationFiles :=
    ApplicationContextFile.collect env.collectEnv safeJobConfig.extraFiles libraryInfos
  let nodeVersion ← getNodeVersion env.nodeVersionFull
  let createApplicationPayload :=
    CreateApplicationPayload.make env.platformArch nodeVersion
      applicationPackages applicationFiles safeJobConfig
  let resp := env.createApplicationResponse createApplicationPayload
  let uploadFilePayloads ←
    uploadLoop resp.fileHashesRequiringUpload applicationFiles resp.applicationId
  let createJobPayload : CreateJobPayload :=
    { applicationId := resp.applicationId
      serializedJobEntrypoint := entrypoint
      jobType := "instant"
      memoryMb := jsOrNullInt safeJobConfig.memoryMb
      scheduledJobCrontab := none
      clientVersion := "test"
      hostDefinition := HostDefinition.ofHost safeJobConfig.host }
  pure ⟨createApplicationPayload, uploadFilePayloads, createJobPayload⟩

/-! ## Job status fetching (api.js `jobStatus`, job.js `getStatus`)

The transport attempt sequence is an oracle: `attempt n` is the outcome
(status result, or thrown error message) of the `n`-th HTTP request made
while fetching status.  `Api.jobStatus` loops over `retries = 3` attempts,
retrying **every** error and throwing only on the last; `Job.getStatus`
loops over `retries = 7` calls of `Api.jobStatus`, retrying only errors
whose text includes `socket hang up` and rethrowing every other error. -/

/-- A job status response. -/
structure JobStatusResult where
  jobStatus : String
  jobId : String
  deriving Repr, DecidableEq

/-- The transport oracle for status fetching: the outcome of the `n`-th
HTTP request (error = the thrown error's message text). -/
structure StatusEnv where
  attempt : Nat → Except String JobStatusResult

/-- The `for (let i=0; i<retries; ++i)` loop of `Api.jobStatus`, with `left`
iterations remaining, issuing requests from index `k` on.  Returns the
result and the number of requests issued. -/
def apiJobStatusLoop (env : StatusEnv) (k : Nat) :
    Nat → Except String JobStatusResult × Nat
  | 0 => (.error "", 0)
  | 1 =>
    match env.attempt k with
    | .ok res => (.ok res, 1)
    | .error e => (.error e, 1)
  | left + 2 =>
    match env.attempt k with
    | .ok res => (.ok res, 1)
    | .error _ =>
      let (res, n) := apiJobStatusLoop env (k + 1) (left + 1)
      (res, n + 1)

/-- `Api.jobStatus(jobGuid)`: up to `retries = 3` transport attempts,
retrying every error, throwing the last one. -/
def Api.jobStatus (env : StatusEnv) (k : Nat) : Except String JobStatusResult × Nat :=
  apiJobStatusLoop env k 3

/-- The `for (let i=0; i<retries; ++i)` loop of `Job.getStatus`: each
iteration is one `Api.jobStatus` call; a thrown error whose text includes
`socket hang up` is swallowed and the loop continues, any other error is
rethrown; after `retries` swallowed errors, `error getting status`. -/
def getStatusLoop (env : StatusEnv) (k : Nat) :
    Nat → Except String JobStatusResult × Nat
  | 0 => (.error "error getting status", 0)
  | left + 1 =>
    let (res, n) := Api.jobStatus env k
    match res with
    | .ok r => (.ok r, n)
    | .error e =>
      if strContains e "socket hang up" then
        let (res2, n2) := getStatusLoop env (k + n) left
        (res2, n + n2)
      else
        (.error e, n)

/-- `Job.getStatus(retries = 7)`. -/
def Job.getStatus (env : StatusEnv) : Except String JobStatusResult × Nat :=
  getStatusLoop env 0 7

/-! ## `Job.wait` (job.js)

A cooperative-time model: the environment says what each successive
(successful) status poll returns and how long it takes; the inter-poll
delay is the literal `await timeout(700)`.  The returned event trace
records the polls and sleeps in order. -/

/-- `this.finalStates` / `this.errorStates` of a `Job`. -/
def finalStates : List String := ["finished", "canceled"]

/-- The terminal-with-error states. -/
def errorStates : List String := ["error"]

/-- The environment of one `wait` call: the result of the `i`-th status
poll and the wall-clock time it consumes. -/
structure WaitEnv where
  status : Nat → JobStatusResult
  pollTime : Nat → Nat

/-- The mutable job handle state that `wait` consults: the cached first
terminal status, or `null`. -/
structure JobState where
  finalStatusResult : Option JobStatusResult
  deriving Repr, DecidableEq

/-- One event of a `wait` call. -/
inductive WaitEvent where
  /-- The `i`-th `this.getStatus()` network call. -/
  | statusCall (i : Nat) : WaitEvent
  /-- An `await timeout(ms)` delay. -/
  | sleep (ms : Nat) : WaitEvent
  deriving Repr, DecidableEq

/-- `expiration && (new Date().getTime() > (startTime + expiration))`:
`null` and `0` are falsy, so neither ever triggers the timeout. -/
def expirationTriggered (expiration : Option Nat) (startTime now : Nat) : Bool :=
  match expiration with
  | none => false
  | some e => !(e == 0) && decide (now > startTime + e)

/-- The `while (true)` polling loop of `Job.wait`, fuelled (the JS loop is
unbounded; the timeout theorems supply enough fuel).  Returns the outcome
and the event trace from the current iteration on. -/
def waitLoop (env : WaitEnv) (expiration : Option Nat) (startTime : Nat) :
    Nat → Nat → Nat → Option (Except ClientError JobStatusResult × List WaitEvent)
  | _, _, 0 => none
  | now, i, fuel + 1 =>
    if expirationTriggered expiration startTime now then
      some (.error .timeoutWaiting, [])
    else
      let statusResult := env.status i
      let afterPoll := now + env.pollTime i
      if finalStates.contains (jsToLower statusResult.jobStatus) then
        some (.ok statusResult, [.statusCall i])
      else if errorStates.contains (jsToLower statusResult.jobStatus) then
        some (.ok statusResult, [.statusCall i])
      else
        match waitLoop env expiration startTime (afterPoll + 700) (i + 1) fuel with
        | none => none
        | some (out, evs) => some (out, .statusCall i :: .sleep 700 :: evs)

/-- `Job.wait(expiration)`: return the cached terminal status immediately
when present (no network call), else poll.  `now` is `new Date().getTime()`
at entry (the `startTime`). -/
def Job.wait (env : WaitEnv) (job : JobState) (expiration : Option Nat)
    (now : Nat) (fuel : Nat) :
    Option (Except ClientError JobStatusResult × List WaitEvent) :=
  match job.finalStatusResult with
  | some r => some (.ok r, [])
  | none => waitLoop env expiration now now 0 fuel

/-- The inter-poll spacing discipline of a `wait` event trace: status calls
separated by exactly one 700 ms sleep, starting with a call, possibly
ending on the sleep that precedes a timeout. -/
def wellSpaced : List WaitEvent → Bool
  | [] => true
  | [.statusCall _] => true
  | .statusCall _ :: .sleep ms :: rest => ms == 700 && wellSpaced rest
  | _ => false

/-! ## Concrete fixtures

Small concrete instantiations of the environments, used by the evaluation
theorems and witnesses below. -/

/-- A collected file fixture: `a.js` with content bytes `[1, 2]` and hash
`h1`. -/
def fileA : ApplicationContextFile :=
  { filePath := "/proj/a.js"
    filePathRelativeToAppContext := "a.js"
    fileHash := "h1"
    fileByteCount := 2
    fileContents := [1, 2] }

/-- A collect environment fixture: a cwd containing one source file. -/
def collectEnvA : CollectEnv :=
  { relPath := fun p => p
    isDirectory := fun _ => false
    listAllFiles := fun _ => []
    requireCacheKeys := []
    cwdJsFiles := ["a.js"]
    readFileBytes := fun _ => [7]
    sha256hex := fun _ => "h7" }

/-- A diamond-shaped module graph, as produced by any project in which two
modules require a common third one: the caller (index 0) requires `a.js`
and `b.js`, and both require `shared.js`.  `children` lists the cached
module on every requirer, as the module system does. -/
def diamondGraph : List JsModule :=
  [ { filename := "/proj/main.js", exports := [], parent := none, children := [1, 2] }
  , { filename := "/proj/a.js", exports := [], parent := some 0, children := [3] }
  , { filename := "/proj/b.js", exports := [], parent := some 0, children := [3] }
  , { filename := "/proj/shared.js", exports := [("g", 99)], parent := some 1, children := [] } ]

/-- A function value exported by no module of `diamondGraph`. -/
def unexportedFunction : JsFunction := { fid := 7, name := "lostFunction" }

/-- The hello-world scenario: a project whose only module `index.js`
exports `helloWorld`. -/
def helloWorldTarget : JsFunction := { fid := 1, name := "helloWorld" }

/-- The module graph of the hello-world scenario: the caller's module is
`index.js` itself, which exports the target. -/
def helloWorldGraph : List JsModule :=
  [ { filename := "/proj/index.js", exports := [("helloWorld", 1)],
      parent := none, children := [] } ]

/-- `path.relative("/proj", ·)` of the hello-world scenario. -/
def helloWorldRelPath (p : String) : String :=
  if p == "/proj/index.js" then "index.js" else p

/-- The hello-world collect environment: `index.js` is loaded (in
`require.cache`) and found by the `.js` walk; its contents are the bytes
`[104, 105]`. -/
def helloWorldCollectEnv : CollectEnv :=
  { relPath := helloWorldRelPath
    isDirectory := fun _ => false
    listAllFiles := fun _ => []
    requireCacheKeys := ["/proj/index.js"]
    cwdJsFiles := ["/proj/index.js"]
    readFileBytes := fun p => if p == "index.js" then [104, 105] else []
    sha256hex := fun b => if b == [104, 105] then "hash-index" else "hash-other" }

/-- A library environment that is never consulted (no libraries are
configured in the scenarios below). -/
def emptyLibraryEnv : LibraryEnv :=
  { stat := fun _ => .enoent
    parseManifest := fun _ => none
    tempDir := fun _ => "/tmp/t"
    resolveAbs := fun p => p
    npmPackOk := fun _ => false
    npmPackStdout := fun _ => ""
    npmPackParse := fun _ => .unexpectedToken
    readFileBytes := fun _ => []
    sha256hex := fun _ => "hash-lib" }

/-- The hello-world run environment.  The server's create-application
response acknowledges with id `app-1` and declares zero missing hashes
(the re-run dedup scenario). -/
def helloWorldEnv : RunEnv :=
  { graph := helloWorldGraph
    startIdx := 0
    searchFuel := 10
    collectEnv := helloWorldCollectEnv
    libraryEnv := emptyLibraryEnv
    npmDependencies := []
    platformArch := "linux-x64"
    nodeVersionFull := "12.13.1"
    createApplicationResponse := fun _ =>
      { applicationId := "app-1", fileHashesRequiringUpload := [] } }

/-- The context file `run` collects for `index.js` in the hello-world
scenario. -/
def helloWorldIndexFile : ApplicationContextFile :=
  { filePath := "index.js"
    filePathRelativeToAppContext := "index.js"
    fileHash := "hash-index"
    fileByteCount := 2
    fileContents := [104, 105] }

/-- A library environment fixture for the validation witness: `/lib`
exists and is a directory but holds no `package.json`. -/
def missingManifestLibraryEnv : LibraryEnv :=
  { stat := fun p => if p == "/lib" then .ok true false else .enoent
    parseManifest := fun _ => none
    tempDir := fun _ => "/tmp/t"
    resolveAbs := fun p => p
    npmPackOk := fun _ => false
    npmPackStdout := fun _ => ""
    npmPackParse := fun _ => .unexpectedToken
    readFileBytes := fun _ => []
    sha256hex := fun _ => "hash-lib" }

/-- A transport oracle whose every attempt fails with a non-socket error
(an HTTP 500 rejection). -/
def constantFailStatusEnv : StatusEnv :=
  { attempt := fun _ => .error "500 - Internal Server Error" }

/-- A transport oracle whose every attempt fails with a connection reset. -/
def allSocketStatusEnv : StatusEnv :=
  { attempt := fun _ => .error "socket hang up" }

/-- A wait environment whose server never leaves the `running` state and
whose polls are instantaneous. -/
def runningWaitEnv : WaitEnv :=
  { status := fun _ => { jobStatus := "running", jobId := "job-1" }
    pollTime := fun _ => 0 }

/-! ## Theorems -/

/-- C1: the upload loop of `run` uploads exactly the files whose content
hash appears in the response's `fileHashesRequiringUpload` list: every
payload sent carries a listed hash, every listed hash gets a payload, a
collected file whose hash the server already has (not listed) is never
sent, and a response declaring zero missing hashes causes zero upload-file
requests. -/
theorem uploadLoop_uploads_exactly_missing_hashes :
    (∀ (applicationFiles : List ApplicationContextFile) (applicationId : String),
      uploadLoop [] applicationFiles applicationId = .ok []) ∧
    (∀ (hashes : List String) (applicationFiles : List ApplicationContextFile)
       (applicationId : String) (payloads : List UploadFilePayload),
      uploadLoop hashes applicationFiles applicationId = .ok payloads →
      payloads.length = hashes.length ∧
      (∀ p ∈ payloads, p.applicationContextFile.fileHash ∈ hashes) ∧
      (∀ h ∈ hashes, ∃ p ∈ payloads, p.applicationContextFile.fileHash = h) ∧
      (∀ f ∈ applicationFiles, f.fileHash ∉ hashes →
        ∀ p ∈ payloads, p.applicationContextFile ≠ f)) := by
  constructor
  · intro files aid; rfl
  · intro hashes
    induction hashes with
    | nil =>
      intro files aid payloads hok
      cases hok
      simp
    | cons h hs ih =>
      intro files aid payloads hok
      unfold uploadLoop at hok
      cases hfind : files.find? (fun f => f.fileHash == h) with
      | none => rw [hfind] at hok; cases hok
      | some appFile =>
        rw [hfind] at hok
        cases hrec : uploadLoop hs files aid with
        | error e => rw [hrec] at hok; cases hok
        | ok ps =>
          rw [hrec] at hok
          cases hok
          have hhash : appFile.fileHash = h := by
            have := List.find?_some hfind
            simpa using this
          obtain ⟨ihlen, ihmem, ihcov, ihskip⟩ := ih files aid ps hrec
          refine ⟨by simp [ihlen], ?_, ?_, ?_⟩
          · intro p hp
            rcases List.mem_cons.mp hp with rfl | hp'
            · simp [hhash]
            · exact List.mem_cons_of_mem _ (ihmem p hp')
          · intro h' hh'
            rcases List.mem_cons.mp hh' with rfl | hh''
            · exact ⟨_, List.mem_cons_self _ _, hhash⟩
            · obtain ⟨p, hp, hph⟩ := ihcov h' hh''
              exact ⟨p, List.mem_cons_of_mem _ hp, hph⟩
          · intro f hf hfh p hp
            rcases List.mem_cons.mp hp with rfl | hp'
            · intro hcontra
              apply hfh
              have hfeq : f.fileHash = h := by rw [← hcontra]; exact hhash
              rw [hfeq]
              exact List.mem_cons_self _ _
            · exact ihskip f hf (fun hin => hfh (List.mem_cons_of_mem _ hin)) p hp'

/-- C10: the per-hash lookup in the upload loop is partial: when every hash
the server lists matches some collected file's `fileHash`, the loop
succeeds and builds a payload list (the undefined-dereference branch is
unreachable); when some listed hash matches no collected file, the loop
aborts with the generic undefined-property `TypeError` rather than a
descriptive error. -/
theorem uploadLoop_partial_lookup :
    (∀ (hashes : List String) (applicationFiles : List ApplicationContextFile)
       (applicationId : String),
      (∀ h ∈ hashes, ∃ f ∈ applicationFiles, f.fileHash = h) →
      ∃ payloads, uploadLoop hashes applicationFiles applicationId = .ok payloads) ∧
    (∀ (hashes : List String) (applicationFiles : List ApplicationContextFile)
       (applicationId : String),
      (∃ h ∈ hashes, ∀ f ∈ applicationFiles, f.fileHash ≠ h) →
      uploadLoop hashes applicationFiles applicationId = .error .typeErrorUndefined) := by
  constructor
  · intro hashes files aid
    induction hashes with
    | nil => intro _; exact ⟨[], rfl⟩
    | cons h hs ih =>
      intro hall
      obtain ⟨f, hf, hfh⟩ := hall h (List.mem_cons_self _ _)
      cases hfind : files.find? (fun g => g.fileHash == h) with
      | none =>
        have := List.find?_eq_none.mp hfind f hf
        simp [hfh] at this
      | some appFile =>
        obtain ⟨ps, hps⟩ := ih (fun h' hh' => hall h' (List.mem_cons_of_mem _ hh'))
        exact ⟨⟨appFile, appFile.fileContents, aid⟩ :: ps, by
          unfold uploadLoop; rw [hfind, hps]⟩
  · intro hashes files aid
    induction hashes with
    | nil => intro hex; simp at hex
    | cons h hs ih =>
      intro hex
      cases hfind : files.find? (fun g => g.fileHash == h) with
      | none => unfold uploadLoop; rw [hfind]
      | some appFile =>
        have hfh : appFile.fileHash = h := by
          have := List.find?_some hfind
          simpa using this
        have hmem := List.mem_of_find?_eq_some hfind
        obtain ⟨h', hh', hno⟩ := hex
        rcases List.mem_cons.mp hh' with rfl | hh''
        · exact absurd hfh (hno appFile hmem)
        · have := ih ⟨h', hh'', hno⟩
          unfold uploadLoop
          rw [hfind, this]

/-- C3: for every candidate input set (extra files, loaded modules,
directory-walk results), no file whose project-relative path contains the
dependency-directory pattern `node_modules` or the parent-traversal pattern
`..` (even as a substring, hence in particular as a path segment) appears
among the context files collected from the candidates and passed to the
server. -/
theorem collect_excludes_dependency_and_traversal_paths :
    ∀ (env : CollectEnv) (extraFiles : List String)
      (libraryInfos : List (String × LibraryInfo)) (f : ApplicationContextFile),
      f ∈ ApplicationContextFile.collect env extraFiles libraryInfos →
      f ∉ libraryInfos.map (fun li => li.2.archiveContextFile) →
      strContains f.filePathRelativeToAppContext "node_modules" = false ∧
      strContains f.filePathRelativeToAppContext ".." = false := by
  intro env extraFiles libs f hmem hnotlib
  have hmod : f ∈ moduleContextFiles env extraFiles := by
    rcases List.mem_append.mp hmem with h | h
    · exact h
    · exact absurd h hnotlib
  rcases List.mem_map.mp hmod with ⟨elem, helem, rfl⟩
  have hkept := (List.mem_filter.mp helem).2
  have : isExcludedRel (env.relPath elem) = false := by
    simpa using hkept
  have hpair := this
  simp only [isExcludedRel, Bool.or_eq_false_iff] at hpair
  exact hpair

/-- Every builder call leaves the declared `host.affinity` property
untouched (`withHostAffinity` writes the dynamic `host.hostAffinity`
property instead). -/
theorem applyBuilderCall_preserves_affinity (c : JobConfig) (call : BuilderCall) :
    (applyBuilderCall c call).host.affinity = c.host.affinity := by
  cases call <;> rfl

/-- A builder-call chain from the defaults never changes `host.affinity`. -/
theorem buildJobConfig_affinity_none (calls : List BuilderCall) :
    (buildJobConfig calls).host.affinity = none := by
  suffices h : ∀ c, (calls.foldl applyBuilderCall c).host.affinity = c.host.affinity by
    exact h DefaultJobConfig
  induction calls with
  | nil => intro c; rfl
  | cons a as ih =>
    intro c
    rw [List.foldl_cons, ih, applyBuilderCall_preserves_affinity]

/-- C9: for every `JobConfig` built by chaining builder calls on the
defaults, with host affinity set only through `withHostAffinity`, every
`HostDefinition` payload built from that config carries the default
(`null`) host affinity: `withHostAffinity` records its value in the
`host.hostAffinity` property while `HostDefinition` reads `host.affinity`,
so the value appears in neither the create-application nor the create-job
request. -/
theorem withHostAffinity_value_never_sent :
    ∀ (calls : List BuilderCall),
      (∀ a, (buildJobConfig (calls ++ [.withHostAffinity a])).host.hostAffinity = some a) ∧
      (HostDefinition.ofHost (buildJobConfig calls).host).hostAffinity = none ∧
      (∀ (src ver : String) (pkgs : List ApplicationPackageInfo)
         (files : List ApplicationContextFile),
        (CreateApplicationPayload.make src ver pkgs files
          (buildJobConfig calls)).hostDefinition.hostAffinity = none) ∧
      (∀ (aid : String) (ep : JobEntrypoint) (mem : Option Int) (cron : Option String),
        ({ applicationId := aid, serializedJobEntrypoint := ep, jobType := "instant",
           memoryMb := mem, scheduledJobCrontab := cron, clientVersion := "test",
           hostDefinition := HostDefinition.ofHost (buildJobConfig calls).host } :
          CreateJobPayload).hostDefinition.hostAffinity = none) := by
  intro calls
  have haff := buildJobConfig_affinity_none calls
  refine ⟨?_, ?_, ?_, ?_⟩
  · intro a
    unfold buildJobConfig
    rw [List.foldl_append]
    rfl
  · simpa [HostDefinition.ofHost] using haff
  · intro src ver pkgs files
    simpa [CreateApplicationPayload.make, HostDefinition.ofHost] using haff
  · intro aid ep mem cron
    simpa [HostDefinition.ofHost] using haff

/-- Witness for the upload-loop dedup theorem: one collected file with hash
`h1`, a response listing exactly `h1`. -/
theorem uploadLoop_uploads_exactly_missing_hashes_witness :
    uploadLoop ["h1"] [fileA] "app-1" = .ok [⟨fileA, [1, 2], "app-1"⟩] ∧
    ([(⟨fileA, [1, 2], "app-1"⟩ : UploadFilePayload)]).length = ["h1"].length :=
  ⟨by rfl, (uploadLoop_uploads_exactly_missing_hashes.2 ["h1"] [fileA] "app-1"
    [⟨fileA, [1, 2], "app-1"⟩] (by rfl)).1⟩

/-- Witness for the partial-lookup theorem: the response lists hash `h2`,
which matches no collected file, so the loop aborts with the generic
`TypeError`. -/
theorem uploadLoop_partial_lookup_witness :
    uploadLoop ["h2"] [fileA] "app-1" = .error .typeErrorUndefined :=
  uploadLoop_partial_lookup.2 ["h2"] [fileA] "app-1" ⟨"h2", by decide, by decide⟩

/-- Witness for the exclusion theorem: the single collected file of
`collectEnvA` has a clean relative path. -/
theorem collect_excludes_witness :
    strContains (mkContextFile collectEnvA "a.js").filePathRelativeToAppContext
      "node_modules" = false ∧
    strContains (mkContextFile collectEnvA "a.js").filePathRelativeToAppContext
      ".." = false :=
  collect_excludes_dependency_and_traversal_paths collectEnvA [] []
    (mkContextFile collectEnvA "a.js") (by decide) (by decide)

/-- C2: evaluation of the locator at the failing input.  On the diamond
module graph, with a target function exported by no reachable module, the
BFS pushes `shared.js` twice (once per requirer); after the first copy is
visited the skip-visited loop drains the queue, `shift()` yields
`undefined`, and reading `.filename` from it raises a `TypeError` — the
search crashes instead of raising the NotFound error naming the function
that both the spec and the source's own error message intend.  (With a
single extra unvisited module queued behind the duplicate the search does
reach the NotFound error, confirming the crash is specific to the drained
queue.) -/
theorem locator_crashes_on_diamond_graph :
    (∀ m ∈ diamondGraph, moduleExportsTarget m unexportedFunction = false) ∧
    searchForTargetFunctionModule diamondGraph 0 unexportedFunction 10 =
      some .typeErrorUndefined ∧
    targetFunctionComponents diamondGraph 0 (fun s => s) unexportedFunction 10 =
      .error .typeErrorUndefined ∧
    searchForTargetFunctionModule [⟨"/proj/solo.js", [], none, []⟩] 0
      unexportedFunction 10 = some (.notFoundError "lostFunction") := by
  refine ⟨by decide, by decide, ?_, by decide⟩
  rfl

/-- C7: the hello-world end-to-end scenario.  Submitting `helloWorld`
exported from `index.js` with empty arguments and the default config
produces a create-application payload whose files list contains
`index.js`'s relative path and content hash, and a create-job payload
whose entrypoint is `{functionModuleFile: "index.js", functionName:
"helloWorld", functionArguments: []}` (the serialized string is
`JSON.stringify` of exactly this object). -/
theorem run_helloWorld_end_to_end :
    AegisBladeClient.run helloWorldEnv helloWorldTarget (some []) DefaultJobConfig =
      .ok { createApplicationPayload :=
              CreateApplicationPayload.make "linux-x64" "12.13" []
                [helloWorldIndexFile] DefaultJobConfig
            uploadFilePayloads := []
            createJobPayload :=
              { applicationId := "app-1"
                serializedJobEntrypoint :=
                  { functionModuleFile := "index.js"
                    functionName := "helloWorld"
                    functionArguments := some [] }
                jobType := "instant"
                memoryMb := none
                scheduledJobCrontab := none
                clientVersion := "test"
                hostDefinition := HostDefinition.ofHost DefaultJobConfig.host } } ∧
    helloWorldIndexFile ∈
      (CreateApplicationPayload.make "linux-x64" "12.13" []
        [helloWorldIndexFile] DefaultJobConfig).applicationExecutionContext.files ∧
    helloWorldIndexFile.filePathRelativeToAppContext = "index.js" ∧
    helloWorldIndexFile.fileHash =
      helloWorldCollectEnv.sha256hex (helloWorldCollectEnv.readFileBytes "index.js") := by
  refine ⟨?_, by decide, rfl, by decide⟩
  rfl

/-- C5: evaluation at the failing input for the memory requirement.  A
config built with `withMemory(512)` stores the value in the `memory`
property, but `run` builds the create-job payload from the never-written
`memoryMb` property (`safeJobConfig.memoryMb || null`), so the payload
carries `null` memory while the rest of the payload (application id,
entrypoint, job type `instant`, host definition) is as the claim states. -/
theorem run_drops_configured_memory :
    (DefaultJobConfig.withMemory 512).memory = some 512 ∧
    AegisBladeClient.run helloWorldEnv helloWorldTarget (some [])
        (DefaultJobConfig.withMemory 512) =
      .ok { createApplicationPayload :=
              CreateApplicationPayload.make "linux-x64" "12.13" []
                [helloWorldIndexFile] (DefaultJobConfig.withMemory 512)
            uploadFilePayloads := []
            createJobPayload :=
              { applicationId := "app-1"
                serializedJobEntrypoint :=
                  { functionModuleFile := "index.js"
                    functionName := "helloWorld"
                    functionArguments := some [] }
                jobType := "instant"
                memoryMb := none
                scheduledJobCrontab := none
                clientVersion := "test"
                hostDefinition :=
                  HostDefinition.ofHost (DefaultJobConfig.withMemory 512).host } } := by
  exact ⟨rfl, by rfl⟩

/-- An error while validating the first configured library aborts
`getLibraryInfos` with that error. -/
theorem getLibraryInfos_cons_error (env : LibraryEnv) (library : String)
    (rest : List String) (e : ClientError)
    (h : getLibraryInfo1 env library = .error e) :
    getLibraryInfos env (library :: rest) = .error e := by
  simp [getLibraryInfos, getLibraryInfosLoop, h]

/-- C8: library validation proceeds in order and fails with distinct
errors: a nonexistent path raises the not-found error naming the path; an
existing non-directory path raises the not-a-directory error naming the
path; a directory whose `package.json` is absent (or not a plain file)
raises the missing-manifest error naming the directory; an unparsable
manifest raises the parse error naming the library; a parsed manifest
whose `name` is missing or empty raises the distinct missing-name error. -/
theorem getLibraryInfos_validation_order :
    ∀ (env : LibraryEnv) (library : String) (rest : List String),
      (env.stat library = .enoent →
        getLibraryInfos env (library :: rest) = .error (.libraryNotFound library)) ∧
      (∀ b, env.stat library = .ok false b →
        getLibraryInfos env (library :: rest) = .error (.libraryNotADirectory library)) ∧
      (∀ b, env.stat library = .ok true b →
        env.stat (pathJoin library "package.json") = .enoent →
        getLibraryInfos env (library :: rest) = .error (.libraryMissingManifest library)) ∧
      (∀ b c, env.stat library = .ok true b →
        env.stat (pathJoin library "package.json") = .ok c false →
        getLibraryInfos env (library :: rest) = .error (.libraryMissingManifest library)) ∧
      (∀ b c, env.stat library = .ok true b →
        env.stat (pathJoin library "package.json") = .ok c true →
        env.parseManifest library = none →
        getLibraryInfos env (library :: rest) = .error (.libraryManifestParse library)) ∧
      (∀ b c m, env.stat library = .ok true b →
        env.stat (pathJoin library "package.json") = .ok c true →
        env.parseManifest library = some m →
        manifestNameFalsy m.name = true →
        getLibraryInfos env (library :: rest) = .error .libraryManifestMissingName) := by
  intro env library rest
  refine ⟨?_, ?_, ?_, ?_, ?_, ?_⟩
  · intro h1
    exact getLibraryInfos_cons_error env library rest _ (by simp [getLibraryInfo1, h1])
  · intro b h1
    exact getLibraryInfos_cons_error env library rest _ (by simp [getLibraryInfo1, h1])
  · intro b h1 h2
    exact getLibraryInfos_cons_error env library rest _ (by simp [getLibraryInfo1, h1, h2])
  · intro b c h1 h2
    exact getLibraryInfos_cons_error env library rest _ (by simp [getLibraryInfo1, h1, h2])
  · intro b c h1 h2 h3
    exact getLibraryInfos_cons_error env library rest _ (by simp [getLibraryInfo1, h1, h2, h3])
  · intro b c m h1 h2 h3 h4
    exact getLibraryInfos_cons_error env library rest _ (by simp [getLibraryInfo1, h1, h2, h3, h4])

/-- Witness for the library validation theorem: a directory lacking a
`package.json` gets the missing-manifest error naming it. -/
theorem getLibraryInfos_validation_order_witness :
    getLibraryInfos missingManifestLibraryEnv ["/lib"] =
      .error (.libraryMissingManifest "/lib") :=
  (getLibraryInfos_validation_order missingManifestLibraryEnv "/lib" []).2.2.1
    false (by decide) (by decide)

/-- C6 counterexample: a non-transient transport error (an HTTP 500, not a
socket hang up) does not propagate from a status fetch after a single
request: `Api.jobStatus` retries every error, so three transport attempts
are made before `Job.getStatus` surfaces it — refuting the claim that
non-transient errors propagate immediately without retry. -/
theorem jobStatus_nonTransient_retried_counterexample :
    Job.getStatus constantFailStatusEnv = (.error "500 - Internal Server Error", 3) := by
  rfl

/-- C6 (amended): retry discipline of status fetching.  (i) A successful
first attempt returns after one request.  (ii) Only socket-hang-up errors
are retried at the job layer; any other error surfaces — but only after
the transport layer's own 3 attempts (`Api.jobStatus` retries every
error), not immediately.  (iii) Persistent socket-hang-up errors are
retried a bounded number of times — 7 job-layer retries of 3 transport
attempts each, 21 requests — before a generic status error surfaces. -/
theorem jobStatus_retry_discipline :
    (∀ (env : StatusEnv) (r : JobStatusResult),
      env.attempt 0 = .ok r → Job.getStatus env = (.ok r, 1)) ∧
    (∀ (env : StatusEnv) (e0 e1 e2 : String),
      env.attempt 0 = .error e0 → env.attempt 1 = .error e1 →
      env.attempt 2 = .error e2 →
      strContains e2 "socket hang up" = false →
      Job.getStatus env = (.error e2, 3)) ∧
    (∀ (env : StatusEnv) (msgs : Nat → String),
      (∀ n, env.attempt n = .error (msgs n)) →
      (∀ n, strContains (msgs n) "socket hang up" = true) →
      Job.getStatus env = (.error "error getting status", 21)) := by
  refine ⟨?_, ?_, ?_⟩
  · intro env r h0
    simp [Job.getStatus, getStatusLoop, Api.jobStatus, apiJobStatusLoop, h0]
  · intro env e0 e1 e2 h0 h1 h2 hns
    simp [Job.getStatus, getStatusLoop, Api.jobStatus, apiJobStatusLoop, h0, h1, h2, hns]
  · intro env msgs hmsg hsock
    have hapi : ∀ k, Api.jobStatus env k = (.error (msgs (k + 2)), 3) := by
      intro k
      have e0 := hmsg k
      have e1 := hmsg (k + 1)
      have e2 := hmsg (k + 1 + 1)
      simp [Api.jobStatus, apiJobStatusLoop, e0, e1, e2]
    have hloop : ∀ (left k : Nat),
        getStatusLoop env k left = (.error "error getting status", 3 * left) := by
      intro left
      induction left with
      | zero => intro k; rfl
      | succ n ih =>
        intro k
        simp [getStatusLoop, hapi k, hsock (k + 2), ih (k + 3)]
        omega
    have := hloop 7 0
    simpa [Job.getStatus] using this

/-- Witness for the retry-discipline theorem: persistent connection resets
exhaust all 21 transport attempts before the generic status error. -/
theorem jobStatus_retry_discipline_witness :
    Job.getStatus allSocketStatusEnv = (.error "error getting status", 21) :=
  jobStatus_retry_discipline.2.2 allSocketStatusEnv (fun _ => "socket hang up")
    (fun _ => rfl) (fun _ => rfl)

/-- One unfolding step of the polling loop. -/
theorem waitLoop_succ_eq (env : WaitEnv) (expiration : Option Nat)
    (startTime now i fuel : Nat) :
    waitLoop env expiration startTime now i (fuel + 1) =
      if expirationTriggered expiration startTime now then
        some (.error .timeoutWaiting, [])
      else if finalStates.contains (jsToLower (env.status i).jobStatus) then
        some (.ok (env.status i), [.statusCall i])
      else if errorStates.contains (jsToLower (env.status i).jobStatus) then
        some (.ok (env.status i), [.statusCall i])
      else
        match waitLoop env expiration startTime (now + env.pollTime i + 700) (i + 1) fuel with
        | none => none
        | some (out, evs) => some (out, .statusCall i :: .sleep 700 :: evs) := rfl

/-- Every event trace produced by the polling loop is well spaced: status
calls separated by exactly one 700 ms sleep. -/
theorem waitLoop_wellSpaced (env : WaitEnv) (expiration : Option Nat) (startTime : Nat) :
    ∀ (fuel now i : Nat) (pr : Except ClientError JobStatusResult × List WaitEvent),
      waitLoop env expiration startTime now i fuel = some pr →
      wellSpaced pr.2 = true := by
  intro fuel
  induction fuel with
  | zero =>
    intro now i pr h
    exact absurd h (by simp [waitLoop])
  | succ f ih =>
    intro now i pr h
    simp only [waitLoop] at h
    cases htrig : expirationTriggered expiration startTime now with
    | true =>
      rw [htrig] at h
      simp only [if_true] at h
      cases h
      rfl
    | false =>
      rw [htrig] at h
      simp only [Bool.false_eq_true, if_false] at h
      cases hfin : finalStates.contains (jsToLower (env.status i).jobStatus) with
      | true =>
        rw [hfin] at h
        simp only [if_true] at h
        cases h
        rfl
      | false =>
        rw [hfin] at h
        simp only [Bool.false_eq_true, if_false] at h
        cases herr : errorStates.contains (jsToLower (env.status i).jobStatus) with
        | true =>
          rw [herr] at h
          simp only [if_true] at h
          cases h
          rfl
        | false =>
          rw [herr] at h
          simp only [Bool.false_eq_true, if_false] at h
          cases hrec : waitLoop env expiration startTime (now + env.pollTime i + 700) (i + 1) f with
          | none => rw [hrec] at h; cases h
          | some pr' =>
            obtain ⟨out', evs'⟩ := pr'
            rw [hrec] at h
            cases h
            have := ih (now + env.pollTime i + 700) (i + 1) (out', evs') hrec
            simpa [wellSpaced] using this

/-- A never-terminal status stream drives the polling loop into the
timeout branch once the elapsed sleeps exceed the expiration. -/
theorem waitLoop_times_out (env : WaitEnv) (e : Nat) (startTime : Nat)
    (he : 0 < e)
    (hnt : ∀ n, finalStates.contains (jsToLower (env.status n).jobStatus) = false ∧
                errorStates.contains (jsToLower (env.status n).jobStatus) = false) :
    ∀ (fuel now i : Nat), startTime + e < now + 700 * fuel →
      ∃ evs, waitLoop env (some e) startTime now i (fuel + 1) =
        some (.error .timeoutWaiting, evs) := by
  intro fuel
  induction fuel with
  | zero =>
    intro now i h
    refine ⟨[], ?_⟩
    have htrig : expirationTriggered (some e) startTime now = true := by
      simp [expirationTriggered]
      omega
    simp [waitLoop, htrig]
  | succ f ih =>
    intro now i h
    cases htrig : expirationTriggered (some e) startTime now with
    | true => exact ⟨[], by rw [waitLoop_succ_eq, htrig]; rfl⟩
    | false =>
      obtain ⟨evs, hevs⟩ := ih (now + env.pollTime i + 700) (i + 1) (by omega)
      refine ⟨.statusCall i :: .sleep 700 :: evs, ?_⟩
      rw [waitLoop_succ_eq, htrig, (hnt i).1, (hnt i).2, hevs]
      rfl

/-- C4: (i) `wait` on a job whose terminal status is already cached
returns the cached result immediately, with no status network call and no
sleep; (ii) when the server never reports a terminal state, `wait(e)` with
a positive expiration `e` raises the timeout error once enough loop turns
have passed (`e < 700 * fuel` turns suffice); (iii) every trace of the
polling loop separates successive status polls by exactly one fixed 700 ms
delay. -/
theorem jobWait_semantics :
    (∀ (env : WaitEnv) (r : JobStatusResult) (expiration : Option Nat) (now fuel : Nat),
      Job.wait env ⟨some r⟩ expiration now fuel = some (.ok r, [])) ∧
    (∀ (env : WaitEnv) (e now fuel : Nat),
      (∀ n, finalStates.contains (jsToLower (env.status n).jobStatus) = false ∧
            errorStates.contains (jsToLower (env.status n).jobStatus) = false) →
      0 < e → e < 700 * fuel →
      ∃ evs, Job.wait env ⟨none⟩ (some e) now (fuel + 1) =
        some (.error .timeoutWaiting, evs)) ∧
    (∀ (env : WaitEnv) (job : JobState) (expiration : Option Nat) (now fuel : Nat)
       (pr : Except ClientError JobStatusResult × List WaitEvent),
      Job.wait env job expiration now fuel = some pr →
      wellSpaced pr.2 = true) := by
  refine ⟨?_, ?_, ?_⟩
  · intro env r expiration now fuel
    rfl
  · intro env e now fuel hnt he hlt
    exact waitLoop_times_out env e now he hnt fuel now 0 (by omega)
  · intro env job expiration now fuel pr h
    match job, h with
    | ⟨some r⟩, h => cases h; rfl
    | ⟨none⟩, h => exact waitLoop_wellSpaced env expiration now fuel now 0 pr h

/-- Witness for the wait-semantics theorem: a cached `finished` result
returns as is with no events, and a server stuck in `running` with a
1000 ms expiration times out. -/
theorem jobWait_semantics_witness :
    Job.wait runningWaitEnv ⟨some ⟨"finished", "job-1"⟩⟩ none 0 5 =
      some (.ok ⟨"finished", "job-1"⟩, []) ∧
    ∃ evs, Job.wait runningWaitEnv ⟨none⟩ (some 1000) 0 3 =
      some (.error .timeoutWaiting, evs) :=
  ⟨jobWait_semantics.1 runningWaitEnv ⟨"finished", "job-1"⟩ none 0 5,
   jobWait_semantics.2.1 runningWaitEnv 1000 0 2 (fun _ => ⟨rfl, rfl⟩)
     (by decide) (by decide)⟩
